import Mathlib

/-!
Verification of the `web` and `web/sse` packages of `go.astrophena.name/base`:
the Content-Security-Policy builder and multiplexer (`web/csp.go`, the
`setHeaders` middleware of `web/server.go`) and the Server-Sent-Events
broadcast hub (`web/sse/sse.go`), shallowly embedded in Lean.
-/

set_option maxHeartbeats 1000000

/-! ## CSP policies (`web/csp.go`) -/

/-- CSP source constant `CSPSelf`. -/
def CSPSelf : String := "'self'"

/-- CSP source constant `CSPNone`. -/
def CSPNone : String := "'none'"

/-- `CSP` represents a Content Security Policy (struct `CSP` of `web/csp.go`).
The zero value (all defaults) is an empty policy, matching Go's zero value.
`str` is the unexported cache field set by `Finalize`. -/
structure CSP where
  DefaultSrc : List String := []
  ScriptSrc : List String := []
  StyleSrc : List String := []
  ImgSrc : List String := []
  ConnectSrc : List String := []
  FontSrc : List String := []
  ObjectSrc : List String := []
  MediaSrc : List String := []
  FrameSrc : List String := []
  ChildSrc : List String := []
  FormAction : List String := []
  FrameAncestors : List String := []
  BaseURI : List String := []
  Sandbox : List String := []
  PluginTypes : List String := []
  ReportURI : List String := []
  ReportTo : List String := []
  WorkerSrc : List String := []
  ManifestSrc : List String := []
  PrefetchSrc : List String := []
  NavigateTo : List String := []
  BlockAllMixedContent : Bool := false
  UpgradeInsecureRequests : Bool := false
  str : Option String := none
deriving DecidableEq

/-- One iteration of the reflection loop of `compute` for a slice-valued field:
if the slice is non-empty, emit `tag ++ " " ++ strings.Join(sources, " ")`,
otherwise nothing. -/
def listDirective (tag : String) (sources : List String) : List String :=
  if sources.length > 0 then [tag ++ " " ++ String.intercalate " " sources] else []

/-- One iteration of the reflection loop of `compute` for a bool-valued field:
emit the bare tag when true, nothing when false. -/
def boolDirective (tag : String) (b : Bool) : List String :=
  if b then [tag] else []

/-- The `directives` slice built by `compute` before sorting: the reflection
loop visits the struct fields in declaration order, rendering each tagged
field; the untagged cache field `str` is skipped (`tag == ""`). -/
def CSP.directives (p : CSP) : List String :=
  listDirective "default-src" p.DefaultSrc ++
  listDirective "script-src" p.ScriptSrc ++
  listDirective "style-src" p.StyleSrc ++
  listDirective "img-src" p.ImgSrc ++
  listDirective "connect-src" p.ConnectSrc ++
  listDirective "font-src" p.FontSrc ++
  listDirective "object-src" p.ObjectSrc ++
  listDirective "media-src" p.MediaSrc ++
  listDirective "frame-src" p.FrameSrc ++
  listDirective "child-src" p.ChildSrc ++
  listDirective "form-action" p.FormAction ++
  listDirective "frame-ancestors" p.FrameAncestors ++
  listDirective "base-uri" p.BaseURI ++
  listDirective "sandbox" p.Sandbox ++
  listDirective "plugin-types" p.PluginTypes ++
  listDirective "report-uri" p.ReportURI ++
  listDirective "report-to" p.ReportTo ++
  listDirective "worker-src" p.WorkerSrc ++
  listDirective "manifest-src" p.ManifestSrc ++
  listDirective "prefetch-src" p.PrefetchSrc ++
  listDirective "navigate-to" p.NavigateTo ++
  boolDirective "block-all-mixed-content" p.BlockAllMixedContent ++
  boolDirective "upgrade-insecure-requests" p.UpgradeInsecureRequests

/-- Lexicographic comparison of character lists, by code point. Go's
`sort.Strings` compares strings in byte order, which on UTF-8 data agrees
with code-point order. -/
def charListLe : List Char → List Char → Bool
  | [], _ => true
  | _ :: _, [] => false
  | a :: as, b :: bs =>
    if a < b then true else if b < a then false else charListLe as bs

/-- The string comparison used by `sort.Strings`: `a <= b`. -/
def strLe (a b : String) : Bool := charListLe a.data b.data

/-- `strLe` as a relation, for use with `List.insertionSort`. -/
def strLeRel (a b : String) : Prop := strLe a b = true

instance : DecidableRel strLeRel :=
  fun a b => inferInstanceAs (Decidable (strLe a b = true))

/-- `charListLe` is total. -/
theorem charListLe_total : ∀ as bs : List Char, charListLe as bs = true ∨ charListLe bs as = true
  | [], _ => Or.inl rfl
  | _ :: _, [] => Or.inr rfl
  | a :: as, b :: bs => by
    by_cases hab : a < b
    · exact Or.inl (by simp [charListLe, hab])
    · by_cases hba : b < a
      · exact Or.inr (by simp [charListLe, hba])
      · have hEq : a = b := le_antisymm (not_lt.mp hba) (not_lt.mp hab)
        subst hEq
        rcases charListLe_total as bs with h | h
        · exact Or.inl (by simp [charListLe, hab, h])
        · exact Or.inr (by simp [charListLe, hab, h])

/-- `charListLe` is transitive. -/
theorem charListLe_trans : ∀ as bs cs : List Char,
    charListLe as bs = true → charListLe bs cs = true → charListLe as cs = true
  | [], _, _ => fun _ _ => rfl
  | _ :: _, [], _ => fun h _ => by simp [charListLe] at h
  | _ :: _, _ :: _, [] => fun _ h => by simp [charListLe] at h
  | a :: as, b :: bs, c :: cs => fun h1 h2 => by
    simp only [charListLe] at h1 h2 ⊢
    by_cases hab : a < b
    · by_cases hbc : b < c
      · simp [lt_trans hab hbc]
      · by_cases hcb : c < b
        · simp [hbc, hcb] at h2
        · have hEq : b = c := le_antisymm (not_lt.mp hcb) (not_lt.mp hbc)
          subst hEq
          simp [hab]
    · by_cases hba : b < a
      · simp [hab, hba] at h1
      · have hEq : a = b := le_antisymm (not_lt.mp hba) (not_lt.mp hab)
        subst hEq
        by_cases hac : a < c
        · simp [hac]
        · by_cases hca : c < a
          · simp [hac, hca] at h2
          · have h1' : charListLe as bs = true := by simpa [hab, hba] using h1
            have h2' : charListLe bs cs = true := by simpa [hac, hca] using h2
            simpa [hac, hca] using charListLe_trans as bs cs h1' h2'

/-- `charListLe` is antisymmetric. -/
theorem charListLe_antisymm : ∀ as bs : List Char,
    charListLe as bs = true → charListLe bs as = true → as = bs
  | [], [] => fun _ _ => rfl
  | [], _ :: _ => fun _ h => by simp [charListLe] at h
  | _ :: _, [] => fun h _ => by simp [charListLe] at h
  | a :: as, b :: bs => fun h1 h2 => by
    by_cases hab : a < b
    · simp [charListLe, lt_asymm hab, hab] at h2
    · by_cases hba : b < a
      · simp [charListLe, hab, hba] at h1
      · have hEq : a = b := le_antisymm (not_lt.mp hba) (not_lt.mp hab)
        subst hEq
        have h1' : charListLe as bs = true := by simpa [charListLe, hab] using h1
        have h2' : charListLe bs as = true := by simpa [charListLe, hab] using h2
        rw [charListLe_antisymm as bs h1' h2']

instance : IsTotal String strLeRel :=
  ⟨fun a b => charListLe_total a.data b.data⟩

instance : IsTrans String strLeRel :=
  ⟨fun a b c => charListLe_trans a.data b.data c.data⟩

instance : IsAntisymm String strLeRel :=
  ⟨fun a b h1 h2 => by
    cases a with
    | mk da =>
      cases b with
      | mk db => exact congrArg String.mk (charListLe_antisymm da db h1 h2)⟩

/-- `sort.Strings`: sort a string slice in ascending lexicographic byte
order. -/
def sortStrings (l : List String) : List String :=
  List.insertionSort strLeRel l

/-- `CSP.compute`: render the non-empty directives, `sort.Strings` them and
join with `"; "`. -/
def CSP.compute (p : CSP) : String :=
  String.intercalate "; " (sortStrings p.directives)

/-- `CSP.Finalize`: compute and cache the string representation. -/
def CSP.Finalize (p : CSP) : CSP :=
  { p with str := some p.compute }

/-- `CSP.String`: return the cached header value if present, else compute it. -/
def CSP.String (p : CSP) : String :=
  match p.str with
  | some s => s
  | none => p.compute

/-- The package-level `defaultCSP` of `web/csp.go`. -/
def defaultCSP : CSP :=
  CSP.Finalize
    { DefaultSrc := [CSPSelf]
      ScriptSrc := [CSPSelf]
      FrameAncestors := [CSPNone]
      FormAction := [CSPSelf]
      BaseURI := [CSPSelf]
      ObjectSrc := [CSPSelf]
      BlockAllMixedContent := true }

/-! ## CSP multiplexer (`web/csp.go`) -/

/-- Modelled from the spec: the external request router (`http.ServeMux`,
an external collaborator used "purely as a longest-match/most-specific-match
engine") considers a pattern to match a path when it is the path exactly, or
when it ends in `/` and is a prefix of the path. The suffix and prefix tests
are expressed on the character lists so they are kernel-computable. -/
def patternMatches (pattern path : String) : Bool :=
  pattern == path ||
    (List.isSuffixOf "/".data pattern.data && pattern.data.isPrefixOf path.data)

/-- Modelled from the spec: the router's match query returns the most specific
(longest) registered pattern matching the path, or `""` when none matches,
which is what `mux.mux.Handler(r)` reports. -/
def matchedPattern (path : String) : List String → String
  | [] => ""
  | p :: ps =>
    let best := matchedPattern path ps
    if patternMatches p path && best.length < p.length then p else best

/-- `CSPMux`: the policy multiplexer. `patterns` is the set of patterns
registered with the internal router `mux.mux`; `m` is the map from pattern to
finalized CSP (an association list with unique keys, since `Handle` rejects
duplicates). -/
structure CSPMux where
  patterns : List String
  m : List (String × CSP)
deriving DecidableEq

/-- `NewCSPMux` creates an empty multiplexer. -/
def NewCSPMux : CSPMux := ⟨[], []⟩

/-- `CSPMux.Handle` registers the CSP for the given pattern. `none` models the
`panic("web: multiple registrations for " + pattern)` taken when a policy
already exists for the pattern; otherwise the pattern is registered with the
internal router and the finalized policy is stored. -/
def CSPMux.Handle (mux : CSPMux) (pattern : String) (policy : CSP) : Option CSPMux :=
  if (mux.m.lookup pattern).isSome then
    none
  else
    some ⟨mux.patterns ++ [pattern], mux.m ++ [(pattern, policy.Finalize)]⟩

/-- `CSPMux.PolicyFor`: ask the internal router for the matching pattern, and
return its stored policy with `true`, or the zero CSP with `false` when the
matched pattern (possibly `""` for no match) has no entry. -/
def CSPMux.PolicyFor (mux : CSPMux) (path : String) : CSP × Bool :=
  match mux.m.lookup (matchedPattern path mux.patterns) with
  | some policy => (policy, true)
  | none => ({}, false)

/-! ## `setHeaders` middleware (`web/server.go`) -/

/-- The policy chosen by `Server.setHeaders` for a request: if a `CSPMux` is
configured and reports a match, its policy; otherwise `defaultCSP`. -/
def resolvedCSP (cspMux : Option CSPMux) (path : String) : CSP :=
  match cspMux with
  | some mux =>
    let pr := mux.PolicyFor path
    if pr.2 then pr.1 else defaultCSP
  | none => defaultCSP

/-- The `Content-Security-Policy` header emitted by `Server.setHeaders`:
set to `policy.String()` only when that string is non-empty. -/
def setHeadersCSP (cspMux : Option CSPMux) (path : String) : Option String :=
  let cspHeader := (resolvedCSP cspMux path).String
  if cspHeader != "" then some cspHeader else none

/-! ## SSE broadcast hub (`web/sse/sse.go`) -/

/-- `clientChanBuf`: capacity of each client's delivery channel. -/
def clientChanBuf : Nat := 16

/-- A connected client: the channel's identity (channels are distinct objects
in Go, modelled by a numeric id) and its pending-message buffer. -/
structure Client where
  id : Nat
  buf : List String
deriving DecidableEq

/-- `Streamer`: the registry of connected clients. The Go `map[chan string]
struct{}` keyed by channel identity is modelled as a list of clients with
distinct ids. -/
structure Streamer where
  clients : List Client
deriving DecidableEq

/-- `NewStreamer` creates a Streamer with an empty registry. -/
def NewStreamer : Streamer := ⟨[]⟩

/-- `ErrStreamingUnsupported`. -/
def ErrStreamingUnsupported : String := "streaming unsupported"

/-- `broadcast`: for every registered client attempt a non-blocking send —
enqueue when the channel has fewer than `clientChanBuf` pending messages,
drop the message for that client otherwise. -/
def Streamer.broadcast (s : Streamer) (msg : String) : Streamer :=
  ⟨s.clients.map fun c =>
    if c.buf.length < clientChanBuf then { c with buf := c.buf ++ [msg] } else c⟩

/-- The record built by `SendEvent` in its buffer: `event: <name>\n` then
`data: <data>\n\n`. -/
def sseEventRecord (event data : String) : String :=
  ("event: " ++ event ++ "\n") ++ ("data: " ++ data ++ "\n\n")

/-- `SendEvent` broadcasts a message with a custom event name. -/
def Streamer.SendEvent (s : Streamer) (event data : String) : Streamer :=
  s.broadcast (sseEventRecord event data)

/-- `Send` broadcasts a plain text message under the event name `message`. -/
def Streamer.Send (s : Streamer) (data : String) : Streamer :=
  s.SendEvent "message" data

/-- `SendJSON`: `json.Marshal`'s outcome on the Go value is passed in as an
`Except` (success carries the serialized document). On failure return the
wrapped error without broadcasting; on success delegate to `SendEvent`.
The result pairs the new Streamer state with the returned error. -/
def Streamer.SendJSON (s : Streamer) (event : String)
    (marshalled : Except String String) : Streamer × Option String :=
  match marshalled with
  | .error e => (s, some ("sse: failed to marshal JSON: " ++ e))
  | .ok data => (s.SendEvent event data, none)

/-- Subscription step of `ServeHTTP`: allocate a fresh channel (buffer empty)
and insert it into the registry. -/
def Streamer.subscribe (s : Streamer) (ch : Nat) : Streamer :=
  ⟨s.clients ++ [⟨ch, []⟩]⟩

/-- The deferred cleanup of `ServeHTTP`: `delete(s.clients, clientChan)`. -/
def Streamer.unsubscribe (s : Streamer) (ch : Nat) : Streamer :=
  ⟨s.clients.filter fun c => c.id != ch⟩

/-- Entry of `ServeHTTP` up to subscription: if the response writer is not an
`http.Flusher`, respond with `ErrStreamingUnsupported` and return without
registering; otherwise register a fresh channel. The result pairs the new
state with the error responded, if any. -/
def Streamer.serveHTTPEnter (s : Streamer) (flusherOk : Bool) (ch : Nat) :
    Streamer × Option String :=
  if !flusherOk then (s, some ErrStreamingUnsupported)
  else (s.subscribe ch, none)

/-- `ClientCount` returns the number of currently connected clients. -/
def Streamer.ClientCount (s : Streamer) : Nat :=
  s.clients.length

/-! ## Claim theorems: SSE hub -/

/-- C1: every broadcast (as issued by `Send`, `SendEvent`, or a successful
`SendJSON`) performs, for each registered subscriber, a non-blocking enqueue
onto that subscriber's channel of capacity 16: the message is appended when
fewer than 16 messages are pending, and dropped for that subscriber alone
when the channel is full; the outcome at position `i` is a function of that
subscriber's own buffer only. -/
theorem sse_broadcast_nonblocking_enqueue (s : Streamer) (msg : String) (i : Nat)
    (c : Client) (h : s.clients[i]? = some c) :
    clientChanBuf = 16
    ∧ (s.broadcast msg).clients[i]? =
        some (if c.buf.length < 16 then { c with buf := c.buf ++ [msg] } else c)
    ∧ (∀ t : Streamer, ∀ j : Nat, t.clients[j]? = some c →
        (t.broadcast msg).clients[j]? = (s.broadcast msg).clients[i]?)
    ∧ s.Send msg = s.broadcast (sseEventRecord "message" msg)
    ∧ (∀ e, s.SendEvent e msg = s.broadcast (sseEventRecord e msg))
    ∧ (∀ e, s.SendJSON e (.ok msg) = (s.broadcast (sseEventRecord e msg), none)) := by
  refine ⟨rfl, ?_, ?_, rfl, fun _ => rfl, fun _ => rfl⟩
  · simp [Streamer.broadcast, List.getElem?_map, h, clientChanBuf]
  · intro t j ht
    simp [Streamer.broadcast, List.getElem?_map, h, ht]

/-- Closed instance of `sse_broadcast_nonblocking_enqueue` at a concrete
streamer whose single subscriber has an empty buffer. -/
theorem sse_broadcast_nonblocking_enqueue_witness :
    clientChanBuf = 16
    ∧ (Streamer.broadcast ⟨[⟨0, []⟩]⟩ "hi").clients[0]? =
        some (if ([] : List String).length < 16 then { id := 0, buf := [] ++ ["hi"] } else ⟨0, []⟩)
    ∧ (∀ t : Streamer, ∀ j : Nat, t.clients[j]? = some ⟨0, []⟩ →
        (t.broadcast "hi").clients[j]? = (Streamer.broadcast ⟨[⟨0, []⟩]⟩ "hi").clients[0]?)
    ∧ Streamer.Send ⟨[⟨0, []⟩]⟩ "hi" = Streamer.broadcast ⟨[⟨0, []⟩]⟩ (sseEventRecord "message" "hi")
    ∧ (∀ e, Streamer.SendEvent ⟨[⟨0, []⟩]⟩ e "hi" = Streamer.broadcast ⟨[⟨0, []⟩]⟩ (sseEventRecord e "hi"))
    ∧ (∀ e, Streamer.SendJSON ⟨[⟨0, []⟩]⟩ e (.ok "hi") = (Streamer.broadcast ⟨[⟨0, []⟩]⟩ (sseEventRecord e "hi"), none)) :=
  sse_broadcast_nonblocking_enqueue ⟨[⟨0, []⟩]⟩ "hi" 0 ⟨0, []⟩ (by decide)

/-- C3: `SendJSON` with a failing serialization returns the wrapped error and
broadcasts nothing — the Streamer state, hence every subscriber's pending
queue, is unchanged; with a successful serialization it delegates to
`SendEvent` under the given event name and returns no error. -/
theorem sse_sendJSON_atomic (s : Streamer) (event : String) :
    (∀ err, s.SendJSON event (.error err) =
        (s, some ("sse: failed to marshal JSON: " ++ err)))
    ∧ (∀ (err : String) (i : Nat), ((s.SendJSON event (.error err)).1.clients[i]? = s.clients[i]?))
    ∧ (∀ data, s.SendJSON event (.ok data) = (s.SendEvent event data, none)) :=
  ⟨fun _ => rfl, fun _ _ => rfl, fun _ => rfl⟩

/-- C6: `SendEvent e d` broadcasts exactly the record
`"event: " ++ e ++ "\n" ++ "data: " ++ d ++ "\n\n"` to every registered
subscriber (enqueued whenever the subscriber has room), and `Send d`
broadcasts that record under the event name `message`. -/
theorem sse_sendEvent_format (s : Streamer) (event data : String) :
    sseEventRecord event data = "event: " ++ event ++ "\n" ++ "data: " ++ data ++ "\n\n"
    ∧ s.SendEvent event data = s.broadcast ("event: " ++ event ++ "\n" ++ "data: " ++ data ++ "\n\n")
    ∧ (∀ i : Nat, (s.SendEvent event data).clients[i]? = (s.clients[i]?).map fun c =>
        if c.buf.length < clientChanBuf then
          { c with buf := c.buf ++ ["event: " ++ event ++ "\n" ++ "data: " ++ data ++ "\n\n"] }
        else c)
    ∧ s.Send data = s.SendEvent "message" data := by
  have hrec : sseEventRecord event data =
      "event: " ++ event ++ "\n" ++ "data: " ++ data ++ "\n\n" := by
    simp only [sseEventRecord, ← String.append_assoc]
  refine ⟨hrec, ?_, ?_, rfl⟩
  · rw [Streamer.SendEvent, hrec]
  · intro i
    rw [Streamer.SendEvent, hrec]
    simp [Streamer.broadcast, List.getElem?_map]

/-- C8: when the response writer does not support flushing, `ServeHTTP`
responds with the streaming-unsupported error and returns before registering
any subscriber: the registry and `ClientCount` are unchanged. -/
theorem sse_serveHTTP_unsupported_no_register (s : Streamer) (ch : Nat) :
    s.serveHTTPEnter false ch = (s, some ErrStreamingUnsupported)
    ∧ (s.serveHTTPEnter false ch).1.ClientCount = s.ClientCount
    ∧ (s.serveHTTPEnter false ch).1.clients = s.clients :=
  ⟨rfl, rfl, rfl⟩

/-! ## Helper lemmas on association-list lookup -/

/-- Looking up a key absent from the key column yields `none`. -/
theorem lookup_eq_none_of_not_mem {β : Type} (l : List (String × β)) (a : String)
    (h : a ∉ l.map Prod.fst) : l.lookup a = none := by
  induction l with
  | nil => rfl
  | cons hd tl ih =>
    simp only [List.map_cons, List.mem_cons, not_or] at h
    have hne : (a == hd.1) = false := beq_eq_false_iff_ne.mpr h.1
    simp [List.lookup, hne, ih h.2]

/-- Looking up a key present in the key column yields some value. -/
theorem lookup_isSome_of_mem {β : Type} (l : List (String × β)) (a : String)
    (h : a ∈ l.map Prod.fst) : ∃ b, l.lookup a = some b := by
  induction l with
  | nil => simp at h
  | cons hd tl ih =>
    by_cases he : a = hd.1
    · exact ⟨hd.2, by simp [List.lookup, he]⟩
    · have : a ∈ tl.map Prod.fst := by
        simp only [List.map_cons, List.mem_cons] at h
        exact h.resolve_left he
      obtain ⟨b, hb⟩ := ih this
      exact ⟨b, by simp [List.lookup, beq_eq_false_iff_ne.mpr he, hb]⟩

/-- Lookup skips a block whose key column misses the key. -/
theorem lookup_append_of_not_mem {β : Type} (l₁ l₂ : List (String × β)) (a : String)
    (h : a ∉ l₁.map Prod.fst) : (l₁ ++ l₂).lookup a = l₂.lookup a := by
  induction l₁ with
  | nil => rfl
  | cons hd tl ih =>
    simp only [List.map_cons, List.mem_cons, not_or] at h
    have hne : (a == hd.1) = false := beq_eq_false_iff_ne.mpr h.1
    simp [List.lookup, hne, ih h.2]

/-! ## Claim theorems: CSP -/

/-- C4: registering a pattern already present in a `CSPMux` panics (modelled
by `Handle` returning `none`), while registering a fresh pattern succeeds,
registers the pattern with the internal router, and stores the finalized
policy under that pattern. -/
theorem cspmux_handle_duplicate_panics (mux : CSPMux) (pattern : String) (policy : CSP) :
    (pattern ∈ mux.m.map Prod.fst → mux.Handle pattern policy = none)
    ∧ (pattern ∉ mux.m.map Prod.fst →
        ∃ mux', mux.Handle pattern policy = some mux'
          ∧ mux'.m.lookup pattern = some policy.Finalize
          ∧ mux'.patterns = mux.patterns ++ [pattern]
          ∧ mux'.m.map Prod.fst = mux.m.map Prod.fst ++ [pattern]) := by
  constructor
  · intro hmem
    obtain ⟨b, hb⟩ := lookup_isSome_of_mem mux.m pattern hmem
    simp [CSPMux.Handle, hb]
  · intro hnot
    have hnone : mux.m.lookup pattern = none := lookup_eq_none_of_not_mem mux.m pattern hnot
    refine ⟨⟨mux.patterns ++ [pattern], mux.m ++ [(pattern, policy.Finalize)]⟩, ?_, ?_, rfl, by simp⟩
    · simp [CSPMux.Handle, hnone]
    · rw [lookup_append_of_not_mem mux.m _ pattern hnot]
      simp [List.lookup]

/-- Closed instance of `cspmux_handle_duplicate_panics`: a duplicate
registration of `/api/` panics, and a first registration succeeds and stores
the finalized policy. -/
theorem cspmux_handle_duplicate_panics_witness :
    (CSPMux.Handle ⟨["/api/"], [("/api/", CSP.Finalize {})]⟩ "/api/" { BlockAllMixedContent := true } = none)
    ∧ (∃ mux', CSPMux.Handle NewCSPMux "/api/" { BlockAllMixedContent := true } = some mux'
        ∧ mux'.m.lookup "/api/" = some (CSP.Finalize { BlockAllMixedContent := true })
        ∧ mux'.patterns = NewCSPMux.patterns ++ ["/api/"]
        ∧ mux'.m.map Prod.fst = NewCSPMux.m.map Prod.fst ++ ["/api/"]) :=
  ⟨(cspmux_handle_duplicate_panics ⟨["/api/"], [("/api/", CSP.Finalize {})]⟩ "/api/"
      { BlockAllMixedContent := true }).1 (by decide),
   (cspmux_handle_duplicate_panics NewCSPMux "/api/" { BlockAllMixedContent := true }).2
      (by decide)⟩

/-- C7: serialization is deterministic and finalization-independent — for a
policy whose cache is absent or valid, `String` returns `compute`,
`Finalize` merely fills the cache with `compute` without changing the
serialized value, and `Finalize.String` agrees with `String`. -/
theorem csp_string_finalize_independent (p : CSP)
    (h : p.str = none ∨ p.str = some p.compute) :
    p.Finalize.String = p.String
    ∧ p.String = p.compute
    ∧ p.Finalize.str = some p.compute
    ∧ p.Finalize.compute = p.compute := by
  have hstr : p.String = p.compute := by
    rcases h with h | h <;> simp [CSP.String, h]
  have hfin : p.Finalize.String = p.compute := rfl
  exact ⟨hfin.trans hstr.symm, hstr, rfl, rfl⟩

/-- Closed instance of `csp_string_finalize_independent` at a never-finalized
policy. -/
theorem csp_string_finalize_independent_witness :
    (CSP.Finalize { DefaultSrc := [CSPSelf] }).String = CSP.String { DefaultSrc := [CSPSelf] }
    ∧ CSP.String { DefaultSrc := [CSPSelf] } = CSP.compute { DefaultSrc := [CSPSelf] }
    ∧ (CSP.Finalize { DefaultSrc := [CSPSelf] }).str = some (CSP.compute { DefaultSrc := [CSPSelf] })
    ∧ (CSP.Finalize { DefaultSrc := [CSPSelf] }).compute = CSP.compute { DefaultSrc := [CSPSelf] } :=
  csp_string_finalize_independent { DefaultSrc := [CSPSelf] } (Or.inl rfl)

/-! ## C2 machinery: order-independence of the directive collection -/

/-- Sorting is invariant under permutation of the input: sorted permutations
of a list agree. -/
theorem sortStrings_eq_of_perm {l₁ l₂ : List String} (h : l₁.Perm l₂) :
    sortStrings l₁ = sortStrings l₂ :=
  List.eq_of_perm_of_sorted
    (((List.perm_insertionSort _ l₁).trans h).trans (List.perm_insertionSort _ l₂).symm)
    (List.sorted_insertionSort _ l₁) (List.sorted_insertionSort _ l₂)

/-- Modelled from the spec: "collect all directives with non-empty values —
for list-valued directives, join source tokens with a single space and prefix
with the directive name; for boolean directives, emit just the directive name
when true, omit when false". The spec fixes no collection order (sorting makes
it irrelevant), so this reference collection deliberately uses alphabetical
directive-name order instead of the source's struct declaration order. -/
def cspSpecDirectives (p : CSP) : List String :=
  listDirective "base-uri" p.BaseURI ++
  boolDirective "block-all-mixed-content" p.BlockAllMixedContent ++
  listDirective "child-src" p.ChildSrc ++
  listDirective "connect-src" p.ConnectSrc ++
  listDirective "default-src" p.DefaultSrc ++
  listDirective "font-src" p.FontSrc ++
  listDirective "form-action" p.FormAction ++
  listDirective "frame-ancestors" p.FrameAncestors ++
  listDirective "frame-src" p.FrameSrc ++
  listDirective "img-src" p.ImgSrc ++
  listDirective "manifest-src" p.ManifestSrc ++
  listDirective "media-src" p.MediaSrc ++
  listDirective "navigate-to" p.NavigateTo ++
  listDirective "object-src" p.ObjectSrc ++
  listDirective "plugin-types" p.PluginTypes ++
  listDirective "prefetch-src" p.PrefetchSrc ++
  listDirective "report-to" p.ReportTo ++
  listDirective "report-uri" p.ReportURI ++
  listDirective "sandbox" p.Sandbox ++
  listDirective "script-src" p.ScriptSrc ++
  listDirective "style-src" p.StyleSrc ++
  boolDirective "upgrade-insecure-requests" p.UpgradeInsecureRequests ++
  listDirective "worker-src" p.WorkerSrc

/-- Modelled from the spec: "Sort the resulting directive strings
lexicographically, then join with `\x22; \x22`". -/
def cspSpecRender (p : CSP) : String :=
  String.intercalate "; " (sortStrings (cspSpecDirectives p))

/-- The source's declaration-order collection is a permutation of the spec's
alphabetical collection. -/
theorem directives_perm (p : CSP) : (CSP.directives p).Perm (cspSpecDirectives p) := by
  rw [← Multiset.coe_eq_coe]
  simp only [CSP.directives, cspSpecDirectives, ← Multiset.coe_add]
  ac_rfl

/-- C2: `compute` (hence `String` on uncached policies) renders exactly the
spec's serialization — non-empty directives rendered per kind, sorted
lexicographically, joined with `"; "` — independently of the collection
order; the all-zero policy yields `""` and the policy with only
`BlockAllMixedContent=true` yields `"block-all-mixed-content"`. -/
theorem csp_string_spec_render (p : CSP) :
    p.compute = cspSpecRender p
    ∧ CSP.String {} = ""
    ∧ CSP.String { BlockAllMixedContent := true } = "block-all-mixed-content" :=
  ⟨by rw [CSP.compute, cspSpecRender, sortStrings_eq_of_perm (directives_perm p)],
   by decide, by decide⟩

/-! ## C5 machinery: correctness of the most-specific-match query -/

/-- A string of length zero is empty. -/
theorem string_eq_empty_of_length_eq_zero {q : String} (h : q.length = 0) : q = "" := by
  cases q with
  | mk data =>
    cases data with
    | nil => rfl
    | cons c cs => simp [String.length] at h

/-- Either no pattern matches (query result `""`), or the query result is a
registered pattern that matches the path. -/
theorem matchedPattern_mem (path : String) (patterns : List String) :
    matchedPattern path patterns = "" ∨
      (matchedPattern path patterns ∈ patterns ∧
        patternMatches (matchedPattern path patterns) path = true) := by
  induction patterns with
  | nil => exact Or.inl rfl
  | cons p ps ih =>
    simp only [matchedPattern]
    by_cases hc :
        (patternMatches p path && decide ((matchedPattern path ps).length < p.length)) = true
    · rw [if_pos hc]
      exact Or.inr ⟨List.mem_cons_self p ps, (Bool.and_eq_true _ _ |>.mp hc).1⟩
    · rw [if_neg hc]
      rcases ih with h | ⟨hmem, hmatch⟩
      · exact Or.inl h
      · exact Or.inr ⟨List.mem_cons_of_mem p hmem, hmatch⟩

/-- The query result is at least as long as any registered matching pattern:
the most specific (longest) matching pattern wins. -/
theorem matchedPattern_maximal (path : String) (patterns : List String) :
    ∀ q ∈ patterns, patternMatches q path = true →
      q.length ≤ (matchedPattern path patterns).length := by
  induction patterns with
  | nil => intro q hq; simp at hq
  | cons p ps ih =>
    intro q hq hmq
    simp only [matchedPattern]
    by_cases hc :
        (patternMatches p path && decide ((matchedPattern path ps).length < p.length)) = true
    · rw [if_pos hc]
      rcases List.mem_cons.mp hq with rfl | hq'
      · exact le_refl _
      · have hle := ih q hq' hmq
        have hlt := of_decide_eq_true (Bool.and_eq_true _ _ |>.mp hc).2
        omega
    · rw [if_neg hc]
      rcases List.mem_cons.mp hq with rfl | hq'
      · rw [Bool.and_eq_true] at hc
        have hy : ¬ ((matchedPattern path ps).length < q.length) := fun hlt =>
          hc ⟨hmq, decide_eq_true hlt⟩
        exact Nat.le_of_not_lt hy
      · exact ih q hq' hmq

/-- When no registered pattern matches the path, the query returns `""`. -/
theorem matchedPattern_of_no_match (path : String) (patterns : List String)
    (h : ∀ q ∈ patterns, patternMatches q path = false) :
    matchedPattern path patterns = "" := by
  induction patterns with
  | nil => rfl
  | cons p ps ih =>
    simp only [matchedPattern]
    have hp : patternMatches p path = false := h p (List.mem_cons_self p ps)
    rw [if_neg]
    · exact ih fun q hq => h q (List.mem_cons_of_mem p hq)
    · simp [hp]

/-- C5: for a multiplexer whose router patterns mirror the policy map's keys
(as `Handle` maintains, and `""` is never registrable), `PolicyFor` returns
the stored policy of the most specific (longest) matching pattern together
with `true` when some registered pattern matches the request, and the zero
CSP together with `false` when none does. -/
theorem cspmux_policyFor_specificity (mux : CSPMux) (path : String)
    (hwf : mux.patterns = mux.m.map Prod.fst)
    (hne : "" ∉ mux.patterns) :
    ((∀ q ∈ mux.patterns, patternMatches q path = false) →
      mux.PolicyFor path = ({}, false))
    ∧ (∀ q ∈ mux.patterns, patternMatches q path = true →
        ∃ best policy, best ∈ mux.patterns ∧ patternMatches best path = true
          ∧ (∀ q' ∈ mux.patterns, patternMatches q' path = true → q'.length ≤ best.length)
          ∧ mux.m.lookup best = some policy
          ∧ mux.PolicyFor path = (policy, true)) := by
  constructor
  · intro hno
    have hmp : matchedPattern path mux.patterns = "" := matchedPattern_of_no_match _ _ hno
    have hlk : mux.m.lookup "" = none :=
      lookup_eq_none_of_not_mem _ _ (by rw [← hwf]; exact hne)
    simp [CSPMux.PolicyFor, hmp, hlk]
  · intro q hq hmq
    rcases matchedPattern_mem path mux.patterns with hemp | ⟨hmem, hmatch⟩
    · exfalso
      have hle := matchedPattern_maximal path mux.patterns q hq hmq
      rw [hemp] at hle
      have hq0 : q.length = 0 := by simpa using hle
      have : ("" : String) ∈ mux.patterns := by
        rw [← string_eq_empty_of_length_eq_zero hq0]; exact hq
      exact hne this
    · obtain ⟨policy, hpol⟩ :=
        lookup_isSome_of_mem mux.m (matchedPattern path mux.patterns) (hwf ▸ hmem)
      exact ⟨matchedPattern path mux.patterns, policy, hmem, hmatch,
        fun q' hq' hmq' => matchedPattern_maximal path mux.patterns q' hq' hmq',
        hpol, by simp [CSPMux.PolicyFor, hpol]⟩

/-- Closed instance of `cspmux_policyFor_specificity`: with `/` and `/api/`
registered, a request to `/api/data` resolves to the more specific `/api/`
policy; the spec's fallback example is separately exercised by the C10
witness. -/
theorem cspmux_policyFor_specificity_witness :
    ∃ best policy,
      best ∈ (["/", "/api/"] : List String)
      ∧ patternMatches best "/api/data" = true
      ∧ (∀ q' ∈ (["/", "/api/"] : List String),
          patternMatches q' "/api/data" = true → q'.length ≤ best.length)
      ∧ List.lookup best
          [("/", CSP.Finalize {}), ("/api/", CSP.Finalize { ConnectSrc := [CSPSelf] })]
          = some policy
      ∧ CSPMux.PolicyFor
          ⟨["/", "/api/"],
           [("/", CSP.Finalize {}), ("/api/", CSP.Finalize { ConnectSrc := [CSPSelf] })]⟩
          "/api/data" = (policy, true) :=
  (cspmux_policyFor_specificity
    ⟨["/", "/api/"],
     [("/", CSP.Finalize {}), ("/api/", CSP.Finalize { ConnectSrc := [CSPSelf] })]⟩
    "/api/data" (by decide) (by decide)).2 "/api/" (by decide) (by decide)

/-! ## C9 machinery: registry membership under subscribe/unsubscribe -/

/-- Folding subscribe operations appends one fresh empty-buffer client per
channel. -/
theorem subscribe_foldl_clients (subs : List Nat) (s : Streamer) :
    (subs.foldl Streamer.subscribe s).clients
      = s.clients ++ subs.map (fun ch => ⟨ch, []⟩) := by
  induction subs generalizing s with
  | nil => simp
  | cons a as ih => simp [List.foldl_cons, ih, Streamer.subscribe]

/-- Folding unsubscribe operations keeps exactly the clients whose channel was
not unsubscribed. -/
theorem unsubscribe_foldl_clients (unsubs : List Nat) (s : Streamer) :
    (unsubs.foldl Streamer.unsubscribe s).clients
      = s.clients.filter (fun c => decide (c.id ∉ unsubs)) := by
  induction unsubs generalizing s with
  | nil => simp
  | cons a as ih =>
    simp only [List.foldl_cons]
    rw [ih]
    rw [show (Streamer.unsubscribe s a).clients = s.clients.filter (fun c => c.id != a) from rfl]
    rw [List.filter_filter]
    exact List.filter_congr fun c _ => by
      by_cases h1 : c.id = a <;> by_cases h2 : c.id ∈ as <;> simp [h1, h2]

/-- C9: the deferred cleanup removes a serve operation's subscriber from the
registry (no entry with its channel survives), and after M subscribes of
distinct fresh channels and K unsubscribes of distinct previously subscribed
channels have completed, `ClientCount` is M−K. -/
theorem sse_registry_cleanup_count (subs unsubs : List Nat)
    (hs : subs.Nodup) (hu : unsubs.Nodup) (hsub : ∀ ch ∈ unsubs, ch ∈ subs) :
    (∀ (s : Streamer) (ch : Nat), ∀ c ∈ (s.unsubscribe ch).clients, c.id ≠ ch)
    ∧ (unsubs.foldl Streamer.unsubscribe (subs.foldl Streamer.subscribe NewStreamer)).ClientCount
        = subs.length - unsubs.length := by
  constructor
  · intro s ch c hc
    simpa using (List.mem_filter.mp hc).2
  · rw [Streamer.ClientCount, unsubscribe_foldl_clients, subscribe_foldl_clients]
    simp only [NewStreamer, List.nil_append]
    rw [List.filter_map, List.length_map]
    rw [show ((fun c : Client => decide (c.id ∉ unsubs)) ∘ (fun ch : Nat => (⟨ch, []⟩ : Client)))
        = fun ch : Nat => decide (ch ∉ unsubs) from rfl]
    have hndf : (subs.filter (fun ch => decide (ch ∉ unsubs))).Nodup := hs.filter _
    rw [← List.toFinset_card_of_nodup hndf, ← List.toFinset_card_of_nodup hs,
        ← List.toFinset_card_of_nodup hu]
    rw [List.toFinset_filter]
    rw [show subs.toFinset.filter (fun ch => decide (ch ∉ unsubs))
        = subs.toFinset \ unsubs.toFinset from by ext x; simp [List.mem_toFinset]]
    apply Finset.card_sdiff
    intro x hx
    simp only [List.mem_toFinset] at hx ⊢
    exact hsub x hx

/-- Closed instance of `sse_registry_cleanup_count`: three subscribes and one
unsubscribe leave a count of two. -/
theorem sse_registry_cleanup_count_witness :
    (∀ (s : Streamer) (ch : Nat), ∀ c ∈ (s.unsubscribe ch).clients, c.id ≠ ch)
    ∧ (([2] : List Nat).foldl Streamer.unsubscribe
        (([1, 2, 3] : List Nat).foldl Streamer.subscribe NewStreamer)).ClientCount
        = ([1, 2, 3] : List Nat).length - ([2] : List Nat).length :=
  sse_registry_cleanup_count [1, 2, 3] [2] (by decide) (by decide) (by decide)

/-! ## Claim theorem: `setHeaders` -/

/-- C10: the middleware sets the Content-Security-Policy header exactly when
the resolved policy serializes to a non-empty string; with no multiplexer or
no matching pattern the (non-empty) built-in default policy is resolved and
emitted, while a matching policy that serializes to `""` suppresses the
header without substituting the default. -/
theorem server_setHeaders_csp (cspMux : Option CSPMux) (path : String) :
    (setHeadersCSP cspMux path = none ↔ (resolvedCSP cspMux path).String = "")
    ∧ (∀ h, setHeadersCSP cspMux path = some h → h = (resolvedCSP cspMux path).String)
    ∧ resolvedCSP none path = defaultCSP
    ∧ (∀ mux p, mux.PolicyFor path = (p, true) → resolvedCSP (some mux) path = p)
    ∧ (∀ mux p, mux.PolicyFor path = (p, false) → resolvedCSP (some mux) path = defaultCSP)
    ∧ defaultCSP.String = "base-uri 'self'; block-all-mixed-content; default-src 'self'; form-action 'self'; frame-ancestors 'none'; object-src 'self'; script-src 'self'"
    ∧ setHeadersCSP none path = some defaultCSP.String := by
  refine ⟨?_, ?_, rfl, ?_, ?_, by decide, ?_⟩
  · constructor
    · intro h
      by_cases he : (resolvedCSP cspMux path).String = ""
      · exact he
      · exfalso
        simp only [setHeadersCSP, bne_iff_ne, ne_eq, he, not_false_eq_true, if_true] at h
        exact Option.some_ne_none _ h
    · intro he
      simp only [setHeadersCSP]
      simp [he]
  · intro h hh
    simp only [setHeadersCSP] at hh
    by_cases he : (resolvedCSP cspMux path).String = ""
    · simp [he] at hh
    · simp only [bne_iff_ne, ne_eq, he, not_false_eq_true, if_true] at hh
      exact (Option.some.inj hh).symm
  · intro mux p hp
    simp [resolvedCSP, hp]
  · intro mux p hp
    simp [resolvedCSP, hp]
  · simp only [setHeadersCSP, resolvedCSP]
    rw [if_pos (by decide : (defaultCSP.String != "") = true)]

/-- Closed instance of `server_setHeaders_csp`: a registered zero policy
matching the request serializes to `""`, so no header is emitted and the
default is not substituted; an unmatched request resolves to the default. -/
theorem server_setHeaders_csp_witness :
    setHeadersCSP (some ⟨["/z/"], [("/z/", CSP.Finalize {})]⟩) "/z/x" = none
    ∧ resolvedCSP (some ⟨["/api/"], [("/api/", CSP.Finalize {})]⟩) "/unregistered" = defaultCSP :=
  ⟨(server_setHeaders_csp (some ⟨["/z/"], [("/z/", CSP.Finalize {})]⟩) "/z/x").1.mpr (by decide),
   (server_setHeaders_csp (some ⟨["/api/"], [("/api/", CSP.Finalize {})]⟩) "/unregistered")
     |>.2.2.2.2.1 ⟨["/api/"], [("/api/", CSP.Finalize {})]⟩ {} (by decide)⟩
